import Mathlib

set_option linter.unusedVariables false

namespace VSCodeSolidity

/-! Shallow embedding of the diagnostic pipeline of the vscode-solidity language
server: the SolhintService linter adapter and its ValidationConfig rule resolver
(src/linter/solhint.ts) and the validation orchestrator, diagnostic cache and
merger of the server module. JavaScript objects with string keys are modelled as
association lists in insertion order; promises are modelled by the value their
chain settles with, together with an abstract settle time where scheduling
matters. -/

/-- DiagnosticSeverity of vscode-languageserver; only the two values the
repository produces are modelled. -/
inductive Severity
  | Error
  | Warning
deriving DecidableEq, Repr

/-- Zero-based position inside a document, as produced by rangeOf. -/
structure Pos where
  line : Int
  character : Int
deriving DecidableEq, Repr

/-- Range of a diagnostic. The source field named end is called endPos here
because end is a keyword in Lean. -/
structure Range where
  start : Pos
  endPos : Pos
deriving DecidableEq, Repr

/-- Diagnostic record published to the editor. -/
structure Diagnostic where
  message : String
  severity : Severity
  range : Range
deriving DecidableEq, Repr

/-- Property update on a JavaScript object modelled as an association list in
insertion order: assignment to an existing key keeps its position and replaces
the value, assignment to a new key appends it. -/
def objSet {α : Type} (target : List (String × α)) (k : String) (v : α) :
    List (String × α) :=
  if target.any (fun p => p.1 == k) then
    target.map (fun p => if p.1 == k then (p.1, v) else p)
  else
    target ++ [(k, v)]

/-- Property read on a JavaScript object modelled as an association list. -/
def objGet {α : Type} (m : List (String × α)) (k : String) : Option α :=
  (m.find? (fun p => p.1 == k)).map Prod.snd

/-- Object.assign(target, ...sources): copies every own enumerable key of each
source into the target in order, mutating the target in place; a none source
(null or undefined in JavaScript) is skipped. The result is the final value of
the target object. -/
def objectAssign {α : Type} (target : List (String × α))
    (sources : List (Option (List (String × α)))) : List (String × α) :=
  sources.foldl
    (fun t src =>
      match src with
      | none => t
      | some s => s.foldl (fun t2 kv => objSet t2 kv.1 kv.2) t)
    target

/-! SolhintService (src/linter/solhint.ts lines 18 to 45). The solhint engine
is an external black box; one raw engine message is modelled by LintError. -/

/-- Raw message of the solhint engine: message text, rule identifier, numeric
severity and one-based line and column. -/
structure LintError where
  message : String
  ruleId : String
  severity : Int
  line : Int
  column : Int
deriving DecidableEq, Repr

/-- SolhintService.severity: Warning when the engine severity equals 3,
Error otherwise. -/
def SolhintService.severity (error : LintError) : Severity :=
  if error.severity = 3 then Severity.Warning else Severity.Error

/-- SolhintService.rangeOf: zero-based range starting at (line - 1, column - 1)
and ending one character later on the same line. -/
def SolhintService.rangeOf (error : LintError) : Range :=
  let line := error.line - 1
  let character := error.column - 1
  { start := { line := line, character := character },
    endPos := { line := line, character := character + 1 } }

/-- SolhintService.toDiagnostic: message is the engine message followed by the
rule id in square brackets, with severity and range as above. -/
def SolhintService.toDiagnostic (error : LintError) : Diagnostic :=
  { message := error.message ++ " [" ++ error.ruleId ++ "]",
    severity := SolhintService.severity error,
    range := SolhintService.rangeOf error }

/-- SolhintService.validate: maps toDiagnostic over the messages the engine
returned for the document text. -/
def SolhintService.validate (messages : List LintError) : List Diagnostic :=
  messages.map SolhintService.toDiagnostic

/-! ValidationConfig (src/linter/solhint.ts lines 49 to 92). Rule values are
modelled as booleans, which covers every rule object the claims mention. -/

/-- Rule object: JavaScript object from rule name to rule value. -/
abbrev RuleObj := List (String × Bool)

/-- Value held by the fileConfig field of ValidationConfig. onConfigLoaded
stores either the value JSON.parse returned (an object whose rules property may
be absent) or the boolean false produced by the short-circuit of
(!err) && JSON.parse(data) when the read reported an error. -/
inductive FileConfigVal
  | jsonObj (rules : Option RuleObj)
  | falseVal
deriving DecidableEq, Repr

/-- Property access fileConfig.rules. On the boolean false the access yields
undefined (none), which Object.assign then skips; on an object it yields the
rules property when present. -/
def rulesOf : FileConfigVal → Option RuleObj
  | FileConfigVal.jsonObj r => r
  | FileConfigVal.falseVal => none

/-- Initial value of the static object ValidationConfig.DEFAULT_RULES. The
object is passed to Object.assign as the target by build, so the static is
mutated; the defaultRules field of ValidationConfig tracks its current value. -/
def ValidationConfig.DEFAULT_RULES : RuleObj := [("func-visibility", false)]

/-- ValidationConfig.EMPTY_CONFIG, the object literal with an empty rules
object. -/
def ValidationConfig.EMPTY_CONFIG : FileConfigVal := FileConfigVal.jsonObj (some [])

/-- State of a ValidationConfig instance: the current value of the (mutated)
DEFAULT_RULES static, the IDE rule layer, and the loaded file configuration. -/
structure ValidationConfig where
  defaultRules : RuleObj
  ideRules : RuleObj
  fileConfig : FileConfigVal
deriving DecidableEq, Repr

/-- ValidationConfig.setIdeRules: this.ideRules = rules or the empty object
when rules is null or undefined. -/
def ValidationConfig.setIdeRules (c : ValidationConfig) (rules : Option RuleObj) :
    ValidationConfig :=
  { c with ideRules := rules.getD [] }

/-- ValidationConfig.build: returns an object whose rules property is
Object.assign(DEFAULT_RULES, this.ideRules, this.fileConfig.rules). The first
component is the merged rule object; the second is the configuration state
afterwards, whose defaultRules now hold the merge result because Object.assign
mutated its target. -/
def ValidationConfig.build (c : ValidationConfig) : RuleObj × ValidationConfig :=
  let merged := objectAssign c.defaultRules [some c.ideRules, rulesOf c.fileConfig]
  (merged, { c with defaultRules := merged })

/-- ValidationConfig.onConfigLoaded: this.fileConfig = (!err) && JSON.parse(data).
The external JSON.parse is modelled by its outcome on data: Except.ok with the
parsed value, or Except.error with the thrown SyntaxError message. When err is
truthy the conjunction short-circuits to the boolean false and no parse runs;
otherwise the callback either stores the parsed value or lets the parse
exception escape, which the Except.error result records. -/
def ValidationConfig.onConfigLoaded (err : Bool)
    (parse : Except String FileConfigVal) : Except String FileConfigVal :=
  if err then Except.ok FileConfigVal.falseVal
  else parse

/-- ValidationConfig.readFileConfig followed by the settled read callback: the
method first sets fileConfig to EMPTY_CONFIG, then fs.readFile invokes
onConfigLoaded with the read outcome. The result is the fileConfig value after
the callback ran, paired with the exception that escaped the callback, if any
(when JSON.parse throws, the assignment never runs, so the preset EMPTY_CONFIG
remains in place). -/
def ValidationConfig.readFileConfig (err : Bool)
    (parse : Except String FileConfigVal) : FileConfigVal × Option String :=
  match ValidationConfig.onConfigLoaded err parse with
  | Except.ok v => (v, none)
  | Except.error e => (ValidationConfig.EMPTY_CONFIG, some e)

/-! Validation orchestrator, diagnostic cache and merger of the server module
(src/linter/solhint.ts lines 211 to 371 of the bundled server source). -/

/-- Open document: its URI, the file path Files.uriToFilePath derives from the
URI, and the current text snapshot. -/
structure Document where
  uri : String
  path : String
  text : String
deriving DecidableEq, Repr

/-- fileOf: Files.uriToFilePath(document.uri), modelled by the path field. -/
def fileOf (document : Document) : String := document.path

/-- Process-wide mutable server state: the per-path compile diagnostic cache
lastCompileErrorsForDocument and the two concurrency guard flags. -/
structure ServerState where
  lastCompileErrorsForDocument : List (String × List Diagnostic)
  validatingDocument : Bool
  validatingAllDocuments : Bool
deriving DecidableEq, Repr

/-- One sendDiagnostics message to the editor: a URI and the full replacement
diagnostic list for it. -/
structure Publish where
  uri : String
  diagnostics : List Diagnostic
deriving DecidableEq, Repr

/-- Truthiness test i && i.length > 0 used by the filter inside mergeErrors:
null and undefined are falsy, an array passes exactly when it is non-empty. -/
def truthyAndNonempty (i : Option (List Diagnostic)) : Bool :=
  match i with
  | none => false
  | some l => decide (0 < l.length)

/-- mergeErrors(...errors): filters out falsy and empty lists, then reduces the
remaining lists with concat starting from the empty array. After the filter
every element is some, so getD only discharges the Option wrapper. -/
def mergeErrors (errors : List (Option (List Diagnostic))) : List Diagnostic :=
  (errors.filter truthyAndNonempty).foldl (fun prev curErrors => prev ++ curErrors.getD []) []

/-- sendDiagnostics(uri, ...diagnosticsList): merges the lists with mergeErrors
and sends one publish message for the URI. The returned value is that message. -/
def sendDiagnostics (uri : String) (diagnosticsList : List (Option (List Diagnostic))) :
    Publish :=
  { uri := uri, diagnostics := mergeErrors diagnosticsList }

/-- lastCompileErrorsOf: the cached compile diagnostics for the document path,
or the empty array when the cache has no entry. -/
def lastCompileErrorsOf (st : ServerState) (document : Document) : List Diagnostic :=
  (objGet st.lastCompileErrorsForDocument (fileOf document)).getD []

/-- storeCompileErrors: unconditional overwrite of the cache entry for the
document path with the given errors. -/
def storeCompileErrors (st : ServerState) (document : Document)
    (errors : List Diagnostic) : ServerState :=
  { st with
    lastCompileErrorsForDocument :=
      objSet st.lastCompileErrorsForDocument (fileOf document) errors }

/-- appendLinterErrors(document)(errors): pairs the compile errors with a fresh
lintFile(document) result. The lint engine is external, so the list it returns
at this moment is passed in as lintResult. -/
def appendLinterErrors (document : Document) (lintResult : List Diagnostic)
    (errors : List Diagnostic) : List Diagnostic × List Diagnostic :=
  (errors, lintResult)

/-- Settlement kind of a promise. -/
inductive SettleKind
  | resolved
  | rejected
deriving DecidableEq, Repr

/-- Settlement of a promise: an abstract time at which it settles and whether
it fulfilled or rejected. -/
structure Settled where
  time : Nat
  kind : SettleKind
deriving DecidableEq, Repr

/-- Outcome of the Compiler Session promise returned by compileFile for one
cycle: it settles at an abstract time, either fulfilled with a diagnostics list
or rejected. -/
inductive CompileOutcome
  | resolved (time : Nat) (errors : List Diagnostic)
  | rejected (time : Nat)
deriving DecidableEq, Repr

/-- Everything one validateCompilation cycle produces once its promise chain
has settled: the final server state, the publish messages sent during the
cycle, the settlement of the returned promise, and whether compileFile (the
Compiler Session) was invoked at all. -/
structure CycleResult where
  state : ServerState
  publishes : List Publish
  settled : Settled
  compilerInvoked : Bool
deriving DecidableEq, Repr

/-- validateCompilation(document). When as-you-type compile checking is off the
function returns Promise.resolve(false) without touching anything. Otherwise it
sets the per-document guard and chains on the compile promise:
storeCompileErrors, then appendLinterErrors, then a sendDiagnostics of the pair,
then a final then(validateFlagToFalse, validateFlagToFalse). On rejection the
three fulfilment handlers are skipped (none of them installs a rejection
handler) and the final rejection handler clears the guard and returns normally,
so the chained promise always resolves. The then-callbacks are synchronous, so
the chain settles at the time the compile promise settles. -/
def validateCompilation (enabledAsYouTypeErrorCheck : Bool) (st : ServerState)
    (document : Document) (compile : CompileOutcome) (lintResult : List Diagnostic) :
    CycleResult :=
  if enabledAsYouTypeErrorCheck then
    let st1 : ServerState := { st with validatingDocument := true }
    match compile with
    | CompileOutcome.resolved t errors =>
        let st2 := storeCompileErrors st1 document errors
        let pair := appendLinterErrors document lintResult errors
        let p := sendDiagnostics document.uri [some pair.1, some pair.2]
        { state := { st2 with validatingDocument := false },
          publishes := [p],
          settled := { time := t, kind := SettleKind.resolved },
          compilerInvoked := true }
    | CompileOutcome.rejected t =>
        { state := { st1 with validatingDocument := false },
          publishes := [],
          settled := { time := t, kind := SettleKind.resolved },
          compilerInvoked := true }
  else
    { state := st,
      publishes := [],
      settled := { time := 0, kind := SettleKind.resolved },
      compilerInvoked := false }

/-- Body of the throttled lintAndSendDiagnostics: sendDiagnostics(document.uri,
lintFile(document), lastCompileErrorsOf(document)). The throttle wrapper only
affects when the body runs, not what it publishes; the fresh lint engine output
is passed in as lintResult. -/
def lintAndSendDiagnostics (st : ServerState) (document : Document)
    (lintResult : List Diagnostic) : Publish :=
  sendDiagnostics document.uri
    [some lintResult, some (lastCompileErrorsOf st document)]

/-- Handler registered with documents.onDidClose: sends one publish with an
empty diagnostics list for the closed document URI. The server state is not
touched by the handler. -/
def onDidClose (st : ServerState) (document : Document) : ServerState × Publish :=
  (st, { uri := document.uri, diagnostics := [] })

/-- Promise.all over a list of settlements: it rejects at the time of the
earliest rejected input, and otherwise resolves once the last input has
resolved (immediately for the empty list). -/
def promiseAll (ps : List Settled) : Settled :=
  let rejectionTimes :=
    (ps.filter (fun p =>
      match p.kind with
      | SettleKind.rejected => true
      | SettleKind.resolved => false)).map Settled.time
  match rejectionTimes with
  | [] => { time := (ps.map Settled.time).foldl max 0, kind := SettleKind.resolved }
  | t :: ts => { time := ts.foldl min t, kind := SettleKind.rejected }

/-- validateAllDocuments. When the whole-workspace guard is already set the
body is skipped: the call is a no-op, modelled by none. Otherwise the guard is
set, every open document gets a validateCompilation cycle, and
Promise.all(compileResults).then(validateAllFlagToFalse, validateAllFlagToFalse)
clears the guard when the join settles, on fulfilment and on rejection alike;
the returned settlement is the moment the guard is cleared. -/
def validateAllDocuments (validatingAllDocuments : Bool) (cycles : List Settled) :
    Option Settled :=
  if validatingAllDocuments then none
  else some (promiseAll cycles)

/-- Settlements of the per-document cycles a validateAllDocuments pass starts:
one validateCompilation per open document, each fed its own compile outcome and
fresh lint result. -/
def cycleSettles (enabled : Bool)
    (inputs : List (ServerState × Document × CompileOutcome × List Diagnostic)) :
    List Settled :=
  inputs.map (fun i => (validateCompilation enabled i.1 i.2.1 i.2.2.1 i.2.2.2).settled)

/-! Linter variant selection of server.ts (lines 214 to 265). -/

/-- Value of the linter setting: the option is typed boolean or string. -/
inductive LinterOption
  | ofBool (b : Bool)
  | ofString (s : String)
deriving DecidableEq, Repr

/-- SoliditySettings of server.ts; enabledSolium and soliumRules are the
documented backward-compatibility options. -/
structure SoliditySettings where
  enabledSolium : Bool
  linter : LinterOption
  enabledAsYouTypeCompilationErrorCheck : Bool
  compileUsingLocalVersion : String
  compileUsingRemoteVersion : String
  soliumRules : Option RuleObj
  linterDefaultRules : Option RuleObj
  validationDelay : Nat
deriving DecidableEq, Repr

/-- linterName(settings): when the legacy enabledSolium flag is set the result
is the string solium regardless of the modern linter option; otherwise the
modern linter option is returned as is. -/
def linterName (settings : SoliditySettings) : LinterOption :=
  if settings.enabledSolium then LinterOption.ofString "solium"
  else settings.linter

/-- Linter variant constructed by the onDidChangeConfiguration switch. -/
inductive LinterVariant
  | solhint
  | solium
  | noLinter
deriving DecidableEq, Repr

/-- Switch on linterName(settings.solidity) inside onDidChangeConfiguration:
the solhint case builds a SolhintService, the solium case a SoliumService, and
every other value leaves the linter null. -/
def selectLinter (settings : SoliditySettings) : LinterVariant :=
  if linterName settings = LinterOption.ofString "solhint" then LinterVariant.solhint
  else if linterName settings = LinterOption.ofString "solium" then LinterVariant.solium
  else LinterVariant.noLinter

/-! Concrete instances used by counterexamples and witnesses. -/

/-- Range starting at the origin, one character wide. -/
def range0 : Range :=
  { start := { line := 0, character := 0 }, endPos := { line := 0, character := 1 } }

/-- Sample compile-source diagnostic. -/
def dC : Diagnostic :=
  { message := "compile error", severity := Severity.Error, range := range0 }

/-- Sample lint-source diagnostic. -/
def dL : Diagnostic :=
  { message := "lint finding [rule]", severity := Severity.Warning, range := range0 }

/-- Sample open document. -/
def docF : Document :=
  { uri := "file:///ws/f.sol", path := "/ws/f.sol", text := "contract C {}" }

/-- Server state whose compile cache holds one entry for the sample document. -/
def stCached : ServerState :=
  { lastCompileErrorsForDocument := [("/ws/f.sol", [dC])],
    validatingDocument := false,
    validatingAllDocuments := false }

/-- Server state with an empty compile cache. -/
def st0 : ServerState :=
  { lastCompileErrorsForDocument := [],
    validatingDocument := false,
    validatingAllDocuments := false }

/-- Rule configuration of the concrete instance of claim C4: defaults a=false,
IDE rules a=true and b=true, file rules b=false. -/
def c4cfg : ValidationConfig :=
  { defaultRules := [("a", false)],
    ideRules := [("a", true), ("b", true)],
    fileConfig := FileConfigVal.jsonObj (some [("b", false)]) }

/-- The same ValidationConfig instance after one build call, once the IDE layer
is replaced by an empty object via setIdeRules and the file layer by an empty
rules object: both current layers contribute no rules. -/
def c4cfgLater : ValidationConfig :=
  { ValidationConfig.setIdeRules (c4cfg.build).2 (some []) with
    fileConfig := FileConfigVal.jsonObj (some []) }

/-- Inputs of a sample whole-workspace pass: one document whose compile
resolves at time 3 and one whose compile rejects at time 5. -/
def c5inputs : List (ServerState × Document × CompileOutcome × List Diagnostic) :=
  [(st0, docF, CompileOutcome.resolved 3 [dC], [dL]),
   (st0, docF, CompileOutcome.rejected 5, [dL])]

/-- Settings with the legacy enabledSolium flag set while the modern linter
option names solhint. -/
def c9on : SoliditySettings :=
  { enabledSolium := true,
    linter := LinterOption.ofString "solhint",
    enabledAsYouTypeCompilationErrorCheck := false,
    compileUsingLocalVersion := "",
    compileUsingRemoteVersion := "",
    soliumRules := none,
    linterDefaultRules := none,
    validationDelay := 1500 }

/-- Settings with the legacy flag cleared and the modern option naming
solhint. -/
def c9off : SoliditySettings :=
  { c9on with enabledSolium := false }

/-! Helper lemmas shared by the claim theorems. -/

/-- mergeErrors on exactly two arrays is plain concatenation: an empty array is
filtered out, but concatenating an empty array is a no-op anyway. -/
theorem mergeErrors_pair (a b : List Diagnostic) :
    mergeErrors [some a, some b] = a ++ b := by
  cases a <;> cases b <;> simp [mergeErrors, truthyAndNonempty]

/-- The accumulator of a foldl over max never decreases. -/
theorem foldl_max_init (l : List Nat) (a : Nat) : a ≤ l.foldl max a := by
  induction l generalizing a with
  | nil => exact Nat.le_refl a
  | cons y ys ih => exact le_trans (Nat.le_max_left a y) (ih (max a y))

/-- Every member of a list is bounded by the foldl of max over it. -/
theorem le_foldl_max (l : List Nat) (a : Nat) (x : Nat) :
    x ∈ l → x ≤ l.foldl max a := by
  induction l generalizing a with
  | nil => intro hx; cases hx
  | cons y ys ih =>
    intro hx
    rcases List.mem_cons.mp hx with h | h
    · subst h
      exact le_trans (Nat.le_max_right a x) (foldl_max_init ys (max a x))
    · exact ih (max a y) h

/-- Promise.all over settlements that all resolved resolves at the latest of
their times. -/
theorem promiseAll_resolved (ps : List Settled)
    (h : ∀ p ∈ ps, p.kind = SettleKind.resolved) :
    promiseAll ps =
      { time := (ps.map Settled.time).foldl max 0, kind := SettleKind.resolved } := by
  have hf : ps.filter (fun p =>
      match p.kind with
      | SettleKind.rejected => true
      | SettleKind.resolved => false) = [] := by
    rw [List.filter_eq_nil_iff]
    intro p hp
    rw [h p hp]
    simp
  simp [promiseAll, hf]

/-- The promise chain built by validateCompilation always resolves: either the
fulfilment path runs to the final handler, or the rejection is absorbed by the
final rejection handler validateFlagToFalse, which returns normally. -/
theorem validateCompilation_resolves (enabled : Bool) (st : ServerState)
    (document : Document) (compile : CompileOutcome) (lintResult : List Diagnostic) :
    (validateCompilation enabled st document compile lintResult).settled.kind =
      SettleKind.resolved := by
  cases enabled <;> cases compile <;> simp [validateCompilation]

/-! Claim theorems. -/

/-- Claim C1, amended. The publish at the end of a validateCompilation cycle
sends the compile diagnostics followed by the fresh lint diagnostics, C ++ L;
the publish of the throttled lint-only pass sends the lists in the opposite
order, fresh lint diagnostics first and the cached compile diagnostics
appended, L ++ C. -/
theorem C1_publish_order (st : ServerState) (document : Document) (t : Nat)
    (errors lintResult : List Diagnostic) :
    (validateCompilation true st document
        (CompileOutcome.resolved t errors) lintResult).publishes
      = [{ uri := document.uri, diagnostics := errors ++ lintResult }] ∧
    lintAndSendDiagnostics st document lintResult
      = { uri := document.uri,
          diagnostics := lintResult ++ lastCompileErrorsOf st document } := by
  constructor
  · simp [validateCompilation, sendDiagnostics, appendLinterErrors, mergeErrors_pair]
  · simp [lintAndSendDiagnostics, sendDiagnostics, mergeErrors_pair]

/-- Claim C1, counterexample to the claim as stated: with cached compile list
C = [dC] and fresh lint list L = [dL], the throttled lint-only publish carries
[dL, dC], which is not C ++ L = [dC, dL]. -/
theorem C1_counterexample :
    lastCompileErrorsOf stCached docF = [dC] ∧
    (lintAndSendDiagnostics stCached docF [dL]).diagnostics = [dL, dC] ∧
    ¬ ((lintAndSendDiagnostics stCached docF [dL]).diagnostics = [dC] ++ [dL]) := by
  decide

/-- Claim C2, amended. When the compile promise rejects, the cycle stores
nothing: the compile-diagnostic cache is left exactly as it was (the previous
entry stays, possibly stale), no publish is sent, the per-document guard is
still cleared by the final rejection handler, and the cycle promise resolves so
subsequent validations proceed. -/
theorem C2_reject_recovery (st : ServerState) (document : Document) (t : Nat)
    (lintResult : List Diagnostic) :
    (validateCompilation true st document
        (CompileOutcome.rejected t) lintResult).state.lastCompileErrorsForDocument
      = st.lastCompileErrorsForDocument ∧
    (validateCompilation true st document
        (CompileOutcome.rejected t) lintResult).state.validatingDocument = false ∧
    (validateCompilation true st document
        (CompileOutcome.rejected t) lintResult).publishes = [] ∧
    (validateCompilation true st document
        (CompileOutcome.rejected t) lintResult).settled.kind
      = SettleKind.resolved := by
  exact ⟨rfl, rfl, rfl, rfl⟩

/-- Claim C2, counterexample to the claim as stated: starting from a cache that
holds [dC] for the document path, a rejected compile leaves that entry intact;
no empty list is stored for the cycle. -/
theorem C2_counterexample :
    objGet ((validateCompilation true stCached docF
        (CompileOutcome.rejected 1) []).state.lastCompileErrorsForDocument)
        "/ws/f.sol" = some [dC] ∧
    ¬ (objGet ((validateCompilation true stCached docF
        (CompileOutcome.rejected 1) []).state.lastCompileErrorsForDocument)
        "/ws/f.sol" = some ([] : List Diagnostic)) := by
  decide

/-- Claim C3, amended. Handling the document-closed notification publishes an
empty diagnostic list for the document URI, but it does not touch the server
state at all: in particular any cached compile-diagnostic entry for the
document path remains in the cache. -/
theorem C3_close_publishes_empty (st : ServerState) (document : Document) :
    (onDidClose st document).2 = { uri := document.uri, diagnostics := [] } ∧
    (onDidClose st document).1 = st := by
  exact ⟨rfl, rfl⟩

/-- Claim C3, counterexample to the claim as stated: closing the sample
document publishes the empty list, yet the cache entry for its path is still
present afterwards instead of being removed. -/
theorem C3_counterexample :
    (onDidClose stCached docF).2 = { uri := docF.uri, diagnostics := [] } ∧
    objGet ((onDidClose stCached docF).1.lastCompileErrorsForDocument)
        "/ws/f.sol" = some [dC] ∧
    ¬ (objGet ((onDidClose stCached docF).1.lastCompileErrorsForDocument)
        "/ws/f.sol" = none) := by
  decide

/-- Claim C4, code bug. On the concrete instance the first build call does
merge with the claimed precedence, defaults a=false, IDE a=true b=true, file
b=false giving a=true b=false. But Object.assign mutates its target, the
shared static DEFAULT_RULES, so after clearing the IDE layer and the file
layer a later build still returns a=true b=false: residue of rule values the
layers held in the earlier call, where a fresh merge of the current layers
would give only a=false. -/
theorem C4_default_rules_mutation :
    (c4cfg.build).1 = [("a", true), ("b", false)] ∧
    (c4cfgLater.build).1 = [("a", true), ("b", false)] ∧
    ¬ ((c4cfgLater.build).1 = [("a", false)]) := by
  decide

/-- Claim C5. A second validateAllDocuments call while the workspace guard is
set is a no-op; otherwise the guard is cleared exactly when Promise.all over
the per-document cycles settles, every cycle promise resolves (rejections are
absorbed by the final rejection handler of each cycle), and the clearing time
is the maximum of the cycle settle times, so it is never earlier than any
cycle settlement, in particular never at a first failure. -/
theorem C5_validate_all (enabled : Bool)
    (inputs : List (ServerState × Document × CompileOutcome × List Diagnostic)) :
    validateAllDocuments true (cycleSettles enabled inputs) = none ∧
    validateAllDocuments false (cycleSettles enabled inputs)
      = some { time := ((cycleSettles enabled inputs).map Settled.time).foldl max 0,
               kind := SettleKind.resolved } ∧
    ∀ s ∈ cycleSettles enabled inputs,
      s.kind = SettleKind.resolved ∧
      s.time ≤ ((cycleSettles enabled inputs).map Settled.time).foldl max 0 := by
  have hres : ∀ s ∈ cycleSettles enabled inputs, s.kind = SettleKind.resolved := by
    intro s hs
    simp only [cycleSettles, List.mem_map] at hs
    obtain ⟨i, hi, rfl⟩ := hs
    exact validateCompilation_resolves enabled i.1 i.2.1 i.2.2.1 i.2.2.2
  refine ⟨rfl, ?_, ?_⟩
  · simp [validateAllDocuments, promiseAll_resolved _ hres]
  · intro s hs
    exact ⟨hres s hs,
      le_foldl_max _ 0 s.time (List.mem_map_of_mem Settled.time hs)⟩

/-- Claim C5, witness: a pass over one cycle resolving at time 3 and one whose
compile rejects at time 5 clears the guard at time 5 via the fulfilment path,
and the time-3 cycle settles no later than the clearing time. -/
theorem C5_validate_all_witness :
    validateAllDocuments true (cycleSettles true c5inputs) = none ∧
    validateAllDocuments false (cycleSettles true c5inputs)
      = some { time := 5, kind := SettleKind.resolved } ∧
    (3 : Nat) ≤ ((cycleSettles true c5inputs).map Settled.time).foldl max 0 := by
  obtain ⟨h1, h2, h3⟩ := C5_validate_all true c5inputs
  refine ⟨h1, ?_, ?_⟩
  · rw [h2]; decide
  · exact (h3 { time := 3, kind := SettleKind.resolved } (by decide)).2

/-- Claim C6. With as-you-type compile checking disabled, validateCompilation
returns the immediately resolved Promise.resolve(false): the server state is
returned untouched (so the compile-diagnostic cache mapping is identical
before and after), nothing is published, and the Compiler Session is not
invoked. -/
theorem C6_disabled_frame (st : ServerState) (document : Document)
    (compile : CompileOutcome) (lintResult : List Diagnostic) :
    validateCompilation false st document compile lintResult
      = { state := st, publishes := [],
          settled := { time := 0, kind := SettleKind.resolved },
          compilerInvoked := false } ∧
    (validateCompilation false st document compile
        lintResult).state.lastCompileErrorsForDocument
      = st.lastCompileErrorsForDocument := by
  exact ⟨rfl, rfl⟩

/-- Claim C7, amended. A missing configuration file (read error) stores the
boolean false as fileConfig without any failure escaping, and build then
behaves exactly as with the empty rules object, the file contributing no
rules. A present but unparsable file, however, makes JSON.parse throw inside
the read callback: the preset EMPTY_CONFIG remains as fileConfig (so later
builds still see no file rules), but the parse error does escape the
configuration resolver. -/
theorem C7_file_config_degrade (parse : Except String FileConfigVal)
    (d i : RuleObj) :
    ValidationConfig.readFileConfig true parse = (FileConfigVal.falseVal, none) ∧
    (ValidationConfig.build
        { defaultRules := d, ideRules := i, fileConfig := FileConfigVal.falseVal }).1
      = (ValidationConfig.build
        { defaultRules := d, ideRules := i,
          fileConfig := ValidationConfig.EMPTY_CONFIG }).1 ∧
    (∀ e, parse = Except.error e →
      ValidationConfig.readFileConfig false parse
        = (ValidationConfig.EMPTY_CONFIG, some e)) := by
  refine ⟨rfl, ?_, ?_⟩
  · simp [ValidationConfig.build, objectAssign, rulesOf, ValidationConfig.EMPTY_CONFIG]
  · intro e he
    subst he
    rfl

/-- Claim C7, witness: a read error degrades to the boolean false with no
escaping failure, and a parse error on a present file escapes while the empty
config remains. -/
theorem C7_file_config_degrade_witness :
    ValidationConfig.readFileConfig true (Except.error "SyntaxError")
      = (FileConfigVal.falseVal, none) ∧
    ValidationConfig.readFileConfig false (Except.error "SyntaxError")
      = (ValidationConfig.EMPTY_CONFIG, some "SyntaxError") := by
  obtain ⟨h1, h2, h3⟩ :=
    C7_file_config_degrade (Except.error "SyntaxError") [("a", false)] []
  exact ⟨h1, h3 "SyntaxError" rfl⟩

/-- Claim C7, counterexample to the claim as stated: on a present file whose
contents do not parse as JSON, the SyntaxError thrown by JSON.parse escapes
the load callback, so loading does raise a hard failure out of the
configuration resolver. -/
theorem C7_counterexample :
    ¬ ((ValidationConfig.readFileConfig false
        (Except.error "SyntaxError: Unexpected end of JSON input")).2 = none) := by
  decide

/-- Claim C8. mergeErrors drops the null and the empty lists, concatenates the
surviving lists in call order (it equals the flattening of the filtered inputs), and
repeated calls on identical inputs give identical outputs. -/
theorem C8_merge_errors (errors : List (Option (List Diagnostic))) :
    mergeErrors errors
      = ((errors.filterMap id).filter (fun l => decide (0 < l.length))).flatten ∧
    ∀ errors2, errors = errors2 → mergeErrors errors = mergeErrors errors2 := by
  constructor
  · have aux : ∀ (es : List (Option (List Diagnostic))) (acc : List Diagnostic),
        (es.filter truthyAndNonempty).foldl
            (fun prev curErrors => prev ++ curErrors.getD []) acc
          = acc ++ ((es.filterMap id).filter (fun l => decide (0 < l.length))).flatten := by
      intro es
      induction es with
      | nil => intro acc; simp
      | cons h t ih =>
        intro acc
        cases h with
        | none => simpa [truthyAndNonempty] using ih acc
        | some l =>
          by_cases hl : 0 < l.length
          · simp [truthyAndNonempty, hl, ih, List.append_assoc]
          · have hnil : l = [] := by
              cases l with
              | nil => rfl
              | cons x xs => exact absurd (Nat.succ_pos xs.length) hl
            subst hnil
            simpa [truthyAndNonempty] using ih acc
    simpa [mergeErrors] using aux errors []
  · intro errors2 h
    rw [h]

/-- Claim C8, witness: on a concrete input holding a null and an empty list
the merge keeps the two non-empty lists in order, and a repeated call gives
the same output. -/
theorem C8_merge_errors_witness :
    mergeErrors [some [dC], none, some [], some [dL]] = [dC, dL] ∧
    mergeErrors [some [dC], none, some [], some [dL]]
      = mergeErrors [some [dC], none, some [], some [dL]] := by
  obtain ⟨h1, h2⟩ := C8_merge_errors [some [dC], none, some [], some [dL]]
  refine ⟨?_, h2 _ rfl⟩
  rw [h1]
  decide

/-- Claim C9. linterName checks the legacy enabledSolium flag first: when the
flag is set the selected name is solium regardless of the modern linter
option, and the configuration switch then builds the solium variant; when the
flag is cleared the modern linter option alone is returned. -/
theorem C9_legacy_flag (settings : SoliditySettings) :
    (settings.enabledSolium = true →
      linterName settings = LinterOption.ofString "solium" ∧
      selectLinter settings = LinterVariant.solium) ∧
    (settings.enabledSolium = false → linterName settings = settings.linter) := by
  constructor
  · intro h
    have h1 : linterName settings = LinterOption.ofString "solium" := by
      simp [linterName, h]
    refine ⟨h1, ?_⟩
    unfold selectLinter
    rw [h1]
    decide
  · intro h
    simp [linterName, h]

/-- Claim C9, witness: with the legacy flag set and the modern option naming
solhint, the selection is still solium; with the flag cleared the modern
option is returned as is. -/
theorem C9_legacy_flag_witness :
    linterName c9on = LinterOption.ofString "solium" ∧
    selectLinter c9on = LinterVariant.solium ∧
    linterName c9off = c9off.linter := by
  obtain ⟨hOn, hOff⟩ := C9_legacy_flag c9on
  obtain ⟨h1, h2⟩ := hOn rfl
  exact ⟨h1, h2, (C9_legacy_flag c9off).2 rfl⟩

/-- Claim C10. For every engine message, the diagnostic built by
SolhintService has the engine message followed by the rule id in square
brackets, severity Warning exactly when the engine severity equals 3 and
Error otherwise, and a zero-based range from (line - 1, column - 1) to one
character later on the same line; validate maps this conversion over every
engine message. -/
theorem C10_to_diagnostic (error : LintError) (messages : List LintError) :
    (SolhintService.toDiagnostic error).message
      = error.message ++ " [" ++ error.ruleId ++ "]" ∧
    (SolhintService.toDiagnostic error).severity
      = (if error.severity = 3 then Severity.Warning else Severity.Error) ∧
    (SolhintService.toDiagnostic error).range.start
      = { line := error.line - 1, character := error.column - 1 } ∧
    (SolhintService.toDiagnostic error).range.endPos
      = { line := error.line - 1, character := (error.column - 1) + 1 } ∧
    SolhintService.validate messages = messages.map SolhintService.toDiagnostic := by
  exact ⟨rfl, rfl, rfl, rfl, rfl⟩

end VSCodeSolidity
